import Mathlib

/-!
Shallow embedding of the Stockholm parking tool's data-freshness layer
(src/data.ts: fetchWithRetries, normalizeFacilityMetadata,
normalizeAvailability, getFacilities, getAvailability) and of the
recommendation sort (src/tool.ts: sortRecommendations), together with
theorems settling the specification claims about them.

JavaScript values are modelled by the inductive `Js`, with `undefined`
represented as `Option.none` at use sites (a missing object field is
`none`).  JavaScript numbers are modelled as `JsNum`: `NaN`, signed
infinity, or a finite value carried as a rational.  Time is modelled as
integer milliseconds.  Asynchronous effects are modelled by explicit
state passing: the synchronous prefix of each cache operation is a pure
function from (time, cache state, fetch environment) to (result, new
state, effect flags), and the completion of a background refresh is a
separate pure transition on the cache state.
-/

namespace SthlmParking

/-! ### JavaScript value model -/

inductive JsNum where
  | nan
  | inf (neg : Bool)
  | fin (q : ℚ)
deriving DecidableEq

inductive Js where
  | nul
  | bool (b : Bool)
  | num (n : JsNum)
  | str (s : String)
  | arr (xs : List Js)
  | obj (fields : List (String × Js))

/-- A JavaScript object as seen by the normalizers (Record<string, unknown>). -/
abbrev JsRecord := List (String × Js)

/-- Field access on an object; `none` is JavaScript `undefined`. -/
def jget (r : JsRecord) (k : String) : Option Js :=
  (r.find? (fun p => p.1 = k)).map Prod.snd

/-- The JavaScript nullish-coalescing operator `a ?? b`
(`undefined` is `none`, `null` is `some .nul`). -/
def coalesce (a b : Option Js) : Option Js :=
  match a with
  | none => b
  | some .nul => b
  | some v => some v

/-- JavaScript truthiness of a value. -/
def truthy : Js → Bool
  | .nul => false
  | .bool b => b
  | .num .nan => false
  | .num (.inf _) => true
  | .num (.fin q) => q != 0
  | .str s => s ≠ ""
  | .arr _ => true
  | .obj _ => true

/-- Truthiness of a possibly-undefined value (`undefined` is falsy). -/
def otruthy : Option Js → Bool
  | none => false
  | some v => truthy v

/-! ### Number and string coercion

`parseNumber` models `Number(string)`: surrounding whitespace is
ignored, the empty string is 0, the literals accept an optional sign, a
decimal significand and an optional exponent, and `Infinity`;
anything else is NaN.  `ratToString` prints an integer exactly; a
non-integral rational is printed as numerator/denominator, a deviation
from JavaScript float formatting that is harmless here because the
normalizers only ever test coerced strings for emptiness. -/

def digitVal (c : Char) : Option ℕ :=
  if c.isDigit then some (c.toNat - 48) else none

def takeDigits : List Char → (List ℕ × List Char)
  | [] => ([], [])
  | c :: cs =>
    match digitVal c with
    | some d =>
      let r := takeDigits cs
      (d :: r.1, r.2)
    | none => ([], c :: cs)

def digitsToNat (ds : List ℕ) : ℕ :=
  ds.foldl (fun a d => a * 10 + d) 0

/-- Parse an optional exponent part (must consume the whole remainder). -/
def parseExpPart : List Char → Option ℤ
  | [] => some 0
  | c :: cs =>
    if c = 'e' ∨ c = 'E' then
      let signAndRest : Bool × List Char :=
        match cs with
        | '-' :: r => (true, r)
        | '+' :: r => (false, r)
        | r => (false, r)
      let ds := takeDigits signAndRest.2
      if ds.1.isEmpty ∨ ¬ ds.2.isEmpty then none
      else some (if signAndRest.1 then -(digitsToNat ds.1 : ℤ) else (digitsToNat ds.1 : ℤ))
    else none

/-- Parse an unsigned decimal significand with optional fraction and exponent. -/
def parseUnsigned (cs : List Char) : Option ℚ :=
  let intPart := takeDigits cs
  match intPart.2 with
  | '.' :: afterDot =>
    let fracPart := takeDigits afterDot
    if intPart.1.isEmpty ∧ fracPart.1.isEmpty then none
    else
      match parseExpPart fracPart.2 with
      | some e =>
        let mantissa : ℚ :=
          (digitsToNat intPart.1 : ℚ) +
            (digitsToNat fracPart.1 : ℚ) / ((10 : ℚ) ^ fracPart.1.length)
        some (mantissa * (10 : ℚ) ^ e)
      | none => none
  | rest =>
    if intPart.1.isEmpty then none
    else
      match parseExpPart rest with
      | some e => some ((digitsToNat intPart.1 : ℚ) * (10 : ℚ) ^ e)
      | none => none

def isJsWhitespace (c : Char) : Bool :=
  c = ' ' ∨ c = '\t' ∨ c = '\n' ∨ c = '\r'

/-- Model of JavaScript `Number(string)`. -/
def parseNumber (s : String) : JsNum :=
  let cs := ((s.toList.dropWhile isJsWhitespace).reverse.dropWhile isJsWhitespace).reverse
  match cs with
  | [] => .fin 0
  | _ =>
    let signAndBody : Bool × List Char :=
      match cs with
      | '-' :: r => (true, r)
      | '+' :: r => (false, r)
      | r => (false, r)
    if signAndBody.2 = "Infinity".toList then .inf signAndBody.1
    else
      match parseUnsigned signAndBody.2 with
      | some q => .fin (if signAndBody.1 then -q else q)
      | none => .nan

def ratToString (q : ℚ) : String :=
  if q.den = 1 then toString q.num
  else toString q.num ++ "/" ++ toString q.den

def numToString : JsNum → String
  | .nan => "NaN"
  | .inf true => "-Infinity"
  | .inf false => "Infinity"
  | .fin q => ratToString q

/-- Model of JavaScript `String(value)`.  Inside an array join, `null`
elements contribute the empty string. -/
def jsToString : Js → String
  | .nul => "null"
  | .bool b => cond b "true" "false"
  | .num n => numToString n
  | .str s => s
  | .obj _ => "[object Object]"
  | .arr xs =>
    String.intercalate ","
      (xs.attach.map fun x =>
        match x with
        | ⟨.nul, _⟩ => ""
        | ⟨v, _⟩ => jsToString v)

/-- Model of JavaScript `Number(value)`; an array is coerced through its
string form. -/
def jsToNumber : Js → JsNum
  | .nul => .fin 0
  | .bool b => .fin (cond b 1 0)
  | .num n => n
  | .str s => parseNumber s
  | .arr xs => parseNumber (jsToString (.arr xs))
  | .obj _ => .nan

/-! ### Shared types (src/types.ts) and small helpers (src/data.ts) -/

structure ServiceConfig where
  port : ℕ
  baseUrl : String
  facilitiesPath : String
  availabilityPath : String
  requestTimeoutMs : ℕ
  availabilityTtlMs : ℤ
  facilitiesTtlMs : ℤ
  overallTimeoutMs : ℕ
deriving DecidableEq

structure FacilityMetadata where
  id : String
  name : String
  lat : ℚ
  lon : ℚ
  capacity : Option ℚ
  tariffNote : Option String
  zoneCode : Option String
  sourceUrl : String
deriving DecidableEq

structure FacilityAvailability where
  id : String
  freeSpaces : Option ℚ
  capacity : Option ℚ
  lastUpdated : Option String
deriving DecidableEq

/-- toNumberOrNull from src/data.ts. -/
def toNumberOrNull (value : Option Js) : Option ℚ :=
  match value with
  | none => none
  | some .nul => none
  | some v =>
    match jsToNumber v with
    | .fin q => some q
    | _ => none

/-- toStringOrNull from src/data.ts. -/
def toStringOrNull (value : Option Js) : Option String :=
  match value with
  | none => none
  | some .nul => none
  | some v =>
    let str := jsToString v
    if str = "" then none else some str

/-! ### Response normalizer (src/data.ts) -/

/-- The check typeof v === object and v !== null, yielding the value as
a string-keyed record.  A JavaScript array passes the typeof test but
exposes none of the string keys the normalizers read, so it is modelled
as the empty record. -/
def jsAsRecord : Js → Option JsRecord
  | .obj fields => some fields
  | .arr _ => some []
  | _ => none

def resolveIdValue (raw : JsRecord) : Option Js :=
  coalesce (jget raw "id")
    (coalesce (jget raw "Id")
      (coalesce (jget raw "facilityId") (jget raw "FacilityId")))

def resolveNameValue (raw : JsRecord) : Option Js :=
  coalesce (jget raw "name")
    (coalesce (jget raw "Name")
      (coalesce (jget raw "siteName") (jget raw "SiteName")))

def resolvePositionRecord (raw : JsRecord) : Option JsRecord :=
  (coalesce (jget raw "position") (jget raw "Position")).bind jsAsRecord

/-- The latValue computation: the top-level chain, with the position
sub-object consulted only when the top-level chain is undefined. -/
def resolveLatValue (raw : JsRecord) : Option Js :=
  let latTop := coalesce (jget raw "lat") (coalesce (jget raw "latitude") (jget raw "Latitude"))
  match latTop, resolvePositionRecord raw with
  | none, some p =>
    coalesce (jget p "lat")
      (coalesce (jget p "Lat")
        (coalesce (jget p "latitude") (jget p "Latitude")))
  | _, _ => latTop

/-- The lonValue computation, analogous to `resolveLatValue`. -/
def resolveLonValue (raw : JsRecord) : Option Js :=
  let lonTop := coalesce (jget raw "lon") (coalesce (jget raw "longitude") (jget raw "Longitude"))
  match lonTop, resolvePositionRecord raw with
  | none, some p =>
    coalesce (jget p "lon")
      (coalesce (jget p "Lon")
        (coalesce (jget p "longitude") (jget p "Longitude")))
  | _, _ => lonTop

/-- normalizeFacilityMetadata from src/data.ts. -/
def normalizeFacilityMetadata (raw : JsRecord) (config : ServiceConfig) : Option FacilityMetadata :=
  let idValue := resolveIdValue raw
  let nameValue := resolveNameValue raw
  let latValue := resolveLatValue raw
  let lonValue := resolveLonValue raw
  if !otruthy idValue || !otruthy nameValue || latValue.isNone || lonValue.isNone then
    none
  else
    match jsToNumber (latValue.getD .nul), jsToNumber (lonValue.getD .nul) with
    | .fin lat, .fin lon =>
      let capacity := toNumberOrNull (coalesce (jget raw "capacity") (jget raw "Capacity"))
      let tariffNote := toStringOrNull (coalesce (jget raw "tariffNote") (jget raw "TariffNote"))
      let zoneCode := toStringOrNull (coalesce (jget raw "zoneCode") (jget raw "ZoneCode"))
      let fallbackUrl := config.baseUrl ++ config.facilitiesPath
      let sourceUrl :=
        (toStringOrNull
          (coalesce (jget raw "sourceUrl")
            (coalesce (jget raw "SourceUrl")
              (coalesce (jget raw "url")
                (coalesce (jget raw "Url") (some (.str fallbackUrl))))))).getD fallbackUrl
      some {
        id := jsToString (idValue.getD .nul)
        name := jsToString (nameValue.getD .nul)
        lat := lat
        lon := lon
        capacity := capacity
        tariffNote := tariffNote
        zoneCode := zoneCode
        sourceUrl := sourceUrl
      }
    | _, _ => none

/-- normalizeAvailability from src/data.ts. -/
def normalizeAvailability (raw : JsRecord) : Option FacilityAvailability :=
  let idValue := resolveIdValue raw
  if !otruthy idValue then
    none
  else
    some {
      id := jsToString (idValue.getD .nul)
      freeSpaces :=
        toNumberOrNull
          (coalesce (jget raw "freeSpaces")
            (coalesce (jget raw "FreeSpaces")
              (coalesce (jget raw "vacant") (jget raw "Vacant"))))
      capacity := toNumberOrNull (coalesce (jget raw "capacity") (jget raw "Capacity"))
      lastUpdated :=
        toStringOrNull
          (coalesce (jget raw "lastUpdated")
            (coalesce (jget raw "LastUpdated")
              (coalesce (jget raw "updatedAt")
                (coalesce (jget raw "UpdatedAt")
                  (coalesce (jget raw "timestamp") (jget raw "Timestamp"))))))
    }

/-! ### Retrying fetcher (src/data.ts, fetchWithRetries)

One HTTP attempt is modelled by `AttemptOutcome`: either a response
(status, body text, and the parsed JSON body when parsing succeeds), a
transport-level error (network failure or per-request timeout), or an
error observed while the external cancellation signal has fired.  The
environment maps the 1-indexed attempt number to its outcome.  The
function returns the overall result together with the number of
attempts consumed and the list of backoff delays slept, in order. -/

inductive FetchError where
  | httpStatus (status : ℕ) (body : String)
  | transport (msg : String)
  | externalAbort (reason : String)
  | shape (msg : String)
deriving DecidableEq

inductive AttemptOutcome where
  | response (status : ℕ) (body : String) (json : Option Js)
  | netError (msg : String)
  | abortedExternal (reason : String)

def MAX_ATTEMPTS : ℕ := 3

def RETRY_STATUS_CODES : List ℕ := [429, 500, 502, 503, 504]

structure FetchResult where
  result : Except FetchError Js
  attemptsUsed : ℕ
  delays : List ℕ

/-- The attempt loop of fetchWithRetries.  The fuel argument counts the
remaining loop iterations; `attempt` is the 1-indexed attempt number.
A thrown non-retryable status error is caught by the same catch block
that handles transport errors, exactly as in the source. -/
def goFetch (env : ℕ → AttemptOutcome) : ℕ → ℕ → Option FetchError → List ℕ → FetchResult
  | 0, attempt, lastError, delays =>
    ⟨.error (lastError.getD (.transport "no attempt ran")), attempt - 1, delays⟩
  | fuel + 1, attempt, lastError, delays =>
    match env attempt with
    | .response status body json =>
      if 200 ≤ status ∧ status < 300 then
        match json with
        | some js => ⟨.ok js, attempt, delays⟩
        | none =>
          if MAX_ATTEMPTS ≤ attempt then
            ⟨.error (.transport "body is not valid JSON"), attempt, delays⟩
          else
            goFetch env fuel (attempt + 1) (some (.transport "body is not valid JSON"))
              (delays ++ [200 * 2 ^ (attempt - 1)])
      else
        if status ∈ RETRY_STATUS_CODES ∧ attempt < MAX_ATTEMPTS then
          goFetch env fuel (attempt + 1) lastError (delays ++ [200 * 2 ^ (attempt - 1)])
        else
          if MAX_ATTEMPTS ≤ attempt then
            ⟨.error (.httpStatus status body), attempt, delays⟩
          else
            goFetch env fuel (attempt + 1) (some (.httpStatus status body))
              (delays ++ [200 * 2 ^ (attempt - 1)])
    | .netError msg =>
      if MAX_ATTEMPTS ≤ attempt then
        ⟨.error (.transport msg), attempt, delays⟩
      else
        goFetch env fuel (attempt + 1) (some (.transport msg))
          (delays ++ [200 * 2 ^ (attempt - 1)])
    | .abortedExternal reason =>
      ⟨.error (.externalAbort reason), attempt, delays⟩

/-- fetchWithRetries from src/data.ts. -/
def fetchWithRetries (env : ℕ → AttemptOutcome) : FetchResult :=
  goFetch env MAX_ATTEMPTS 1 none []

/-! ### Facility cache (src/data.ts, getFacilities) -/

structure CacheEntry (T : Type) where
  value : T
  expiresAt : ℤ
deriving DecidableEq

/-- The record mapping pipeline of getFacilities: keep the items that
pass the typeof-object test, normalize each, and drop the failures. -/
def normalizeFacilitiesArray (config : ServiceConfig) (items : List Js) : List FacilityMetadata :=
  (items.filterMap jsAsRecord).filterMap (fun r => normalizeFacilityMetadata r config)

structure FacilitiesOutcome where
  result : Except FetchError (List FacilityMetadata)
  state : Option (CacheEntry (List FacilityMetadata))
  fetched : Bool

/-- getFacilities from src/data.ts.  `now` is Date.now() at entry; `env`
is the fetch environment consumed when an upstream call is made;
`fetched` records whether an upstream call happened. -/
def getFacilities (config : ServiceConfig) (now : ℤ) (env : ℕ → AttemptOutcome)
    (st : Option (CacheEntry (List FacilityMetadata))) : FacilitiesOutcome :=
  let fetchPath : FacilitiesOutcome :=
    match (fetchWithRetries env).result with
    | .error e => ⟨.error e, st, true⟩
    | .ok js =>
      match js with
      | .arr items =>
        let facilities := normalizeFacilitiesArray config items
        ⟨.ok facilities, some ⟨facilities, now + config.facilitiesTtlMs⟩, true⟩
      | _ => ⟨.error (.shape "Facilities response is not an array"), st, true⟩
  match st with
  | some cached => if cached.expiresAt > now then ⟨.ok cached.value, st, false⟩ else fetchPath
  | none => fetchPath

/-! ### Availability cache (src/data.ts, refreshAvailability and getAvailability) -/

abbrev AvailMap := List (String × FacilityAvailability)

/-- Map.set semantics: replace in place when the key exists, else append. -/
def mapSet (m : AvailMap) (k : String) (v : FacilityAvailability) : AvailMap :=
  if m.any (fun p => p.1 = k) then m.map (fun p => if p.1 = k then (k, v) else p)
  else m ++ [(k, v)]

def buildAvailabilityMap (items : List Js) : AvailMap :=
  items.foldl
    (fun acc item =>
      match jsAsRecord item with
      | none => acc
      | some r =>
        match normalizeAvailability r with
        | some normalized => mapSet acc normalized.id normalized
        | none => acc)
    []

/-- refreshAvailability from src/data.ts, given the fetch environment. -/
def refreshAvailability (env : ℕ → AttemptOutcome) : Except FetchError AvailMap :=
  match (fetchWithRetries env).result with
  | .error e => .error e
  | .ok js =>
    match js with
    | .arr items => .ok (buildAvailabilityMap items)
    | _ => .error (.shape "Availability response is not an array")

/-- An availability cache slot; `revalidating` models the presence of
the revalidatePromise handle. -/
structure AvailabilityCacheEntry where
  value : AvailMap
  expiresAt : ℤ
  revalidating : Bool
deriving DecidableEq

abbrev AvailState := Option AvailabilityCacheEntry

structure AvailabilityResult where
  data : AvailMap
  stale : Bool
deriving DecidableEq

/-- Outcome of the synchronous prefix of getAvailability: the value
returned (or error thrown) to the caller, the cache state at return
time, whether a background refresh was launched, and whether a
synchronous fetch was performed. -/
structure AvailSyncOutcome where
  result : Except FetchError AvailabilityResult
  state : AvailState
  launchedRefresh : Bool
  fetchedSync : Bool

/-- getAvailability from src/data.ts (its synchronous prefix).  The
branches mirror the source in order: fresh entry; entry with a
revalidate handle; expired entry (launch background refresh, mark the
slot, return stale immediately); otherwise a synchronous fetch whose
error falls back to the cached value when one exists and propagates
when none does. -/
def getAvailability (config : ServiceConfig) (now : ℤ) (env : ℕ → AttemptOutcome)
    (st : AvailState) : AvailSyncOutcome :=
  let syncPath (cached : Option AvailabilityCacheEntry) : AvailSyncOutcome :=
    match refreshAvailability env with
    | .ok fresh =>
      ⟨.ok ⟨fresh, false⟩, some ⟨fresh, now + config.availabilityTtlMs, false⟩, false, true⟩
    | .error e =>
      match cached with
      | some c => ⟨.ok ⟨c.value, true⟩, st, false, true⟩
      | none => ⟨.error e, st, false, true⟩
  match st with
  | some cached =>
    if cached.expiresAt > now then ⟨.ok ⟨cached.value, false⟩, st, false, false⟩
    else if cached.revalidating then ⟨.ok ⟨cached.value, true⟩, st, false, false⟩
    else if cached.expiresAt ≤ now then
      ⟨.ok ⟨cached.value, true⟩, some ⟨cached.value, cached.expiresAt, true⟩, true, false⟩
    else syncPath (some cached)
  | none => syncPath none

/-- Completion of a background availability refresh at `completionTime`:
on success the slot becomes a fresh entry; on failure the revalidate
handle on the current entry is cleared and the entry is otherwise kept. -/
def completeRefresh (config : ServiceConfig) (completionTime : ℤ) (env : ℕ → AttemptOutcome)
    (st : AvailState) : AvailState :=
  match refreshAvailability env with
  | .ok data => some ⟨data, completionTime + config.availabilityTtlMs, false⟩
  | .error _ =>
    match st with
    | some e => some { e with revalidating := false }
    | none => none

/-! ### Recommendation sort (src/tool.ts, sortRecommendations) -/

structure FacilityRecommendation where
  id : String
  name : String
  lat : ℚ
  lon : ℚ
  freeSpaces : Option ℚ
  capacity : Option ℚ
  tariffNote : Option String
  zoneCode : Option String
  distanceMeters : ℚ
  walkMinutes : ℚ
  lastUpdated : Option String
  stale : Bool
  sourceUrl : String
deriving DecidableEq

/-- The comparator passed to Array.prototype.sort. -/
def recCompare (a b : FacilityRecommendation) : ℚ :=
  if a.distanceMeters ≠ b.distanceMeters then a.distanceMeters - b.distanceMeters
  else (b.freeSpaces.getD (-1)) - (a.freeSpaces.getD (-1))

def recLe (a b : FacilityRecommendation) : Bool :=
  recCompare a b ≤ 0

/-- sortRecommendations from src/tool.ts: a stable sort of a copy of
the input by the comparator (Array.prototype.sort is stable and the
comparator is consistent). -/
def sortRecommendations (results : List FacilityRecommendation) : List FacilityRecommendation :=
  results.mergeSort recLe

/-! ### Theorems about the availability cache -/

/-- C1: the claim states that a non-retryable non-2xx status (such as
404) makes fetchWithRetries fail immediately on that attempt without
retrying.  The code instead throws the hard error inside the try block,
where the generic catch meant for transport failures catches it, sleeps
and retries: a constant-404 upstream consumes all three attempts and
two backoff delays before the status-and-body error is surfaced. -/
theorem C1_nonretryable_status_is_retried (body : String) :
    fetchWithRetries (fun _ => .response 404 body none) =
      ⟨.error (.httpStatus 404 body), 3, [200, 400]⟩ := by
  rfl

/-- C2: getAvailability propagates an error exactly when no cache entry
exists and the synchronous first fetch fails; whenever an entry exists,
the caller gets that entry's snapshot (never an error). -/
theorem C2_error_propagation_iff (config : ServiceConfig) (now : ℤ)
    (env : ℕ → AttemptOutcome) (st : AvailState) :
    ((∃ e, (getAvailability config now env st).result = .error e) ↔
      (st = none ∧ ∃ e, refreshAvailability env = .error e)) ∧
    (∀ c, st = some c → ∃ s, (getAvailability config now env st).result = .ok ⟨c.value, s⟩) ∧
    (∀ c, st = some c → (∃ e, refreshAvailability env = .error e) →
      ((getAvailability config now env st).launchedRefresh = true ∨
        (getAvailability config now env st).fetchedSync = true) →
      (getAvailability config now env st).result = .ok ⟨c.value, true⟩) := by
  cases st with
  | none =>
    simp only [getAvailability]
    cases h : refreshAvailability env with
    | ok d => simp [h]
    | error e => simp [h]
  | some c =>
    simp only [getAvailability]
    by_cases h1 : c.expiresAt > now
    · simp [h1]
    · by_cases h2 : c.revalidating
      · simp [h1, h2]
      · have h3 : c.expiresAt ≤ now := by omega
        simp [h1, h2, h3]

theorem C2_error_propagation_iff_witness :
    ∃ s, (getAvailability ⟨3000, "b", "f", "a", 3000, 15000, 86400000, 8000⟩ 10
        (fun _ => .abortedExternal "down") (some ⟨[], 5, true⟩)).result = .ok ⟨[], s⟩ :=
  (C2_error_propagation_iff ⟨3000, "b", "f", "a", 3000, 15000, 86400000, 8000⟩ 10
    (fun _ => .abortedExternal "down") (some ⟨[], 5, true⟩)).2.1 ⟨[], 5, true⟩ rfl

/-- C3: while an expired entry carries the revalidate handle, a call
returns the stale value with stale true immediately, leaves the state
unchanged, and starts no second refresh. -/
theorem C3_single_flight (config : ServiceConfig) (now : ℤ) (env : ℕ → AttemptOutcome)
    (st : AvailState) (e : AvailabilityCacheEntry)
    (hst : st = some e) (hexp : e.expiresAt ≤ now) (hrev : e.revalidating = true) :
    getAvailability config now env st = ⟨.ok ⟨e.value, true⟩, st, false, false⟩ := by
  subst hst
  have h1 : ¬ e.expiresAt > now := by omega
  simp [getAvailability, h1, hrev]

theorem C3_single_flight_witness :
    getAvailability ⟨3000, "b", "f", "a", 3000, 15000, 86400000, 8000⟩ 10
        (fun _ => .abortedExternal "boom") (some ⟨[], 5, true⟩) =
      ⟨.ok ⟨[], true⟩, some ⟨[], 5, true⟩, false, false⟩ :=
  C3_single_flight _ 10 _ _ ⟨[], 5, true⟩ rfl (by norm_num) rfl

/-- C4: the stale-while-revalidate state machine of getAvailability: a
fresh entry is returned with stale false and no network activity; an
expired idle entry launches exactly one background refresh, marks the
slot while keeping the old value and expiry, and returns the stale
value without waiting; a successful background refresh installs a fresh
entry expiring at completion time plus the availability TTL with no
handle; a failed one merely clears the handle, leaving the old value
and past expiry so that the next access starts a new refresh. -/
theorem C4_swr_state_machine (config : ServiceConfig) :
    (∀ (now : ℤ) (env : ℕ → AttemptOutcome) (e : AvailabilityCacheEntry),
      now < e.expiresAt →
      getAvailability config now env (some e) = ⟨.ok ⟨e.value, false⟩, some e, false, false⟩) ∧
    (∀ (now : ℤ) (env : ℕ → AttemptOutcome) (e : AvailabilityCacheEntry),
      e.expiresAt ≤ now → e.revalidating = false →
      getAvailability config now env (some e) =
        ⟨.ok ⟨e.value, true⟩, some ⟨e.value, e.expiresAt, true⟩, true, false⟩) ∧
    (∀ (t : ℤ) (env : ℕ → AttemptOutcome) (st : AvailState) (data : AvailMap),
      refreshAvailability env = .ok data →
      completeRefresh config t env st = some ⟨data, t + config.availabilityTtlMs, false⟩) ∧
    (∀ (t now now2 : ℤ) (env env2 : ℕ → AttemptOutcome) (e : AvailabilityCacheEntry)
        (err : FetchError),
      refreshAvailability env = .error err → e.expiresAt ≤ now → now ≤ now2 →
      completeRefresh config t env (some ⟨e.value, e.expiresAt, true⟩) =
        some ⟨e.value, e.expiresAt, false⟩ ∧
      getAvailability config now2 env2 (some ⟨e.value, e.expiresAt, false⟩) =
        ⟨.ok ⟨e.value, true⟩, some ⟨e.value, e.expiresAt, true⟩, true, false⟩) := by
  refine ⟨?_, ?_, ?_, ?_⟩
  · intro now env e h
    have h1 : e.expiresAt > now := h
    simp [getAvailability, h1]
  · intro now env e hexp hrev
    have h1 : ¬ e.expiresAt > now := by omega
    simp [getAvailability, h1, hrev, hexp]
  · intro t env st data h
    simp [completeRefresh, h]
  · intro t now now2 env env2 e err herr hexp hle
    constructor
    · simp [completeRefresh, herr]
    · have h1 : ¬ (e.expiresAt > now2) := by omega
      simp [getAvailability, h1]

theorem C4_swr_state_machine_witness :
    getAvailability ⟨3000, "b", "f", "a", 3000, 15000, 86400000, 8000⟩ 10
        (fun _ => .abortedExternal "down") (some ⟨[], 5, false⟩) =
      ⟨.ok ⟨[], true⟩, some ⟨[], 5, true⟩, true, false⟩ ∧
    completeRefresh ⟨3000, "b", "f", "a", 3000, 15000, 86400000, 8000⟩ 20
        (fun _ => .response 200 "[]" (some (.arr []))) none =
      some ⟨[], 20 + 15000, false⟩ ∧
    completeRefresh ⟨3000, "b", "f", "a", 3000, 15000, 86400000, 8000⟩ 20
        (fun _ => .abortedExternal "down") (some ⟨[], 5, true⟩) = some ⟨[], 5, false⟩ := by
  refine ⟨?_, ?_, ?_⟩
  · exact (C4_swr_state_machine _).2.1 10 _ ⟨[], 5, false⟩ (by norm_num) rfl
  · exact (C4_swr_state_machine _).2.2.1 20 _ none [] rfl
  · exact ((C4_swr_state_machine _).2.2.2 20 10 10 (fun _ => .abortedExternal "down")
      (fun _ => .abortedExternal "down") ⟨[], 5, true⟩ (.externalAbort "down") rfl
      (by norm_num) (by norm_num)).1

/-! ### Theorems about the facility cache -/

/-- C7: getFacilities returns the cached value with no upstream call
when a non-expired entry exists; otherwise it performs the fetch and
either propagates the fetch error, fails hard when the body is not an
array, or normalizes the array (skipping records that fail
normalization), stores it with expiry now plus the facilities TTL, and
returns it. -/
theorem C7_facility_cache_behavior (config : ServiceConfig) (now : ℤ)
    (env : ℕ → AttemptOutcome) (st : Option (CacheEntry (List FacilityMetadata))) :
    (∀ c, st = some c → now < c.expiresAt →
      getFacilities config now env st = ⟨.ok c.value, st, false⟩) ∧
    ((st = none ∨ ∃ c, st = some c ∧ c.expiresAt ≤ now) →
      ((∀ e, (fetchWithRetries env).result = .error e →
          getFacilities config now env st = ⟨.error e, st, true⟩) ∧
       (∀ js, (fetchWithRetries env).result = .ok js → (∀ items, js ≠ .arr items) →
          getFacilities config now env st =
            ⟨.error (.shape "Facilities response is not an array"), st, true⟩) ∧
       (∀ items, (fetchWithRetries env).result = .ok (.arr items) →
          getFacilities config now env st =
            ⟨.ok (normalizeFacilitiesArray config items),
             some ⟨normalizeFacilitiesArray config items, now + config.facilitiesTtlMs⟩,
             true⟩))) := by
  constructor
  · intro c hst hfresh
    subst hst
    have h1 : c.expiresAt > now := hfresh
    simp [getFacilities, h1]
  · intro hstale
    have hpath : ∀ r,
        (match (fetchWithRetries env).result with
          | .error e => (⟨.error e, st, true⟩ : FacilitiesOutcome)
          | .ok js =>
            match js with
            | .arr items =>
              ⟨.ok (normalizeFacilitiesArray config items),
               some ⟨normalizeFacilitiesArray config items, now + config.facilitiesTtlMs⟩, true⟩
            | _ => ⟨.error (.shape "Facilities response is not an array"), st, true⟩) = r →
        getFacilities config now env st = r := by
      intro r hr
      rcases hstale with h | ⟨c, hc, hexp⟩
      · subst h
        simpa [getFacilities] using hr
      · subst hc
        have h1 : ¬ c.expiresAt > now := by omega
        simpa [getFacilities, h1] using hr
    refine ⟨?_, ?_, ?_⟩
    · intro e he
      exact hpath _ (by rw [he])
    · intro js hjs hnotarr
      apply hpath _
      rw [hjs]
      cases js with
      | arr items => exact absurd rfl (hnotarr items)
      | nul => rfl
      | bool b => rfl
      | num n => rfl
      | str s => rfl
      | obj fields => rfl
    · intro items hitems
      exact hpath _ (by rw [hitems])

theorem C7_facility_cache_behavior_witness :
    getFacilities ⟨3000, "b", "f", "a", 3000, 15000, 86400000, 8000⟩ 10
        (fun _ => .response 200 "[]" (some (.arr []))) (some ⟨[], 20⟩) =
      ⟨.ok [], some ⟨[], 20⟩, false⟩ ∧
    getFacilities ⟨3000, "b", "f", "a", 3000, 15000, 86400000, 8000⟩ 10
        (fun _ => .response 200 "[]" (some (.arr []))) (some ⟨[], 4⟩) =
      ⟨.ok [], some ⟨[], 10 + 86400000⟩, true⟩ := by
  constructor
  · exact (C7_facility_cache_behavior _ 10 _ (some ⟨[], 20⟩)).1 ⟨[], 20⟩ rfl (by norm_num)
  · exact ((C7_facility_cache_behavior ⟨3000, "b", "f", "a", 3000, 15000, 86400000, 8000⟩ 10
      (fun _ => .response 200 "[]" (some (.arr []))) (some ⟨[], 4⟩)).2
      (.inr ⟨⟨[], 4⟩, rfl, by norm_num⟩)).2.2 [] rfl

/-! ### Theorems about the retrying fetcher -/

/-- Invariant of the attempt loop: starting from attempt number
`attempt` with matching fuel, the loop consumes between `attempt` and
`MAX_ATTEMPTS` attempts, and appends exactly one backoff delay of
200 * 2 ^ (n - 1) milliseconds after each completed attempt n that is
followed by another attempt. -/
theorem goFetch_spec (env : ℕ → AttemptOutcome) :
    ∀ (fuel attempt : ℕ) (lastError : Option FetchError) (delays : List ℕ),
      attempt + fuel = MAX_ATTEMPTS + 1 → 1 ≤ attempt → attempt ≤ MAX_ATTEMPTS →
      attempt ≤ (goFetch env fuel attempt lastError delays).attemptsUsed ∧
      (goFetch env fuel attempt lastError delays).attemptsUsed ≤ MAX_ATTEMPTS ∧
      (goFetch env fuel attempt lastError delays).delays =
        delays ++ (List.range ((goFetch env fuel attempt lastError delays).attemptsUsed - attempt)).map
          (fun i => 200 * 2 ^ (attempt - 1 + i)) := by
  intro fuel
  induction fuel with
  | zero =>
    intro attempt lastError delays hsum h1 hle
    simp [MAX_ATTEMPTS] at hsum hle
    omega
  | succ fuel ih =>
    intro attempt lastError delays hsum h1 hle
    have hstep : ∀ (last : Option FetchError),
        attempt < MAX_ATTEMPTS →
        attempt ≤ (goFetch env fuel (attempt + 1) last (delays ++ [200 * 2 ^ (attempt - 1)])).attemptsUsed ∧
        (goFetch env fuel (attempt + 1) last (delays ++ [200 * 2 ^ (attempt - 1)])).attemptsUsed ≤ MAX_ATTEMPTS ∧
        (goFetch env fuel (attempt + 1) last (delays ++ [200 * 2 ^ (attempt - 1)])).delays =
          delays ++ (List.range ((goFetch env fuel (attempt + 1) last (delays ++ [200 * 2 ^ (attempt - 1)])).attemptsUsed - attempt)).map
            (fun i => 200 * 2 ^ (attempt - 1 + i)) := by
      intro last hlt
      obtain ⟨ihl, ihm, ihd⟩ := ih (attempt + 1) last (delays ++ [200 * 2 ^ (attempt - 1)])
        (by omega) (by omega) (by omega)
      refine ⟨by omega, ihm, ?_⟩
      rw [ihd]
      have hA : attempt + 1 ≤ (goFetch env fuel (attempt + 1) last (delays ++ [200 * 2 ^ (attempt - 1)])).attemptsUsed := ihl
      set A := (goFetch env fuel (attempt + 1) last (delays ++ [200 * 2 ^ (attempt - 1)])).attemptsUsed with hAdef
      have hk : A - attempt = (A - (attempt + 1)) + 1 := by omega
      rw [hk, List.range_succ_eq_map, List.map_cons, List.map_map, List.append_assoc,
        List.singleton_append]
      have hfun : ((fun i => 200 * 2 ^ (attempt - 1 + i)) ∘ Nat.succ) =
          (fun i => 200 * 2 ^ (attempt + i)) := by
        funext i
        have : attempt - 1 + Nat.succ i = attempt + i := by omega
        simp [Function.comp, this]
      rw [hfun]
      have hzero : attempt - 1 + 0 = attempt - 1 := by omega
      rw [hzero]
      simp
    cases henv : env attempt with
    | response status body json =>
      by_cases hok : 200 ≤ status ∧ status < 300
      · cases json with
        | some js =>
          simp [goFetch, henv, hok]
          omega
        | none =>
          by_cases hmax : MAX_ATTEMPTS ≤ attempt
          · simp [goFetch, henv, hok, hmax]
            omega
          · have h := hstep (some (.transport "body is not valid JSON")) (by omega)
            simp only [goFetch, henv, hok, hmax, if_true, if_false, ite_true, ite_false,
              if_pos, if_neg, not_false_iff]
            simpa [hok, hmax] using h
      · by_cases hretry : status ∈ RETRY_STATUS_CODES ∧ attempt < MAX_ATTEMPTS
        · have h := hstep lastError hretry.2
          simpa [goFetch, henv, hok, hretry] using h
        · by_cases hmax : MAX_ATTEMPTS ≤ attempt
          · simp [goFetch, henv, hok, hretry, hmax]
            omega
          · have h := hstep (some (.httpStatus status body)) (by omega)
            simpa [goFetch, henv, hok, hretry, hmax] using h
    | netError msg =>
      by_cases hmax : MAX_ATTEMPTS ≤ attempt
      · simp [goFetch, henv, hmax]
        omega
      · have h := hstep (some (.transport msg)) (by omega)
        simpa [goFetch, henv, hmax] using h
    | abortedExternal reason =>
      simp [goFetch, henv]
      omega

/-- C6: fetchWithRetries makes at most three attempts; the backoff
delay slept after the n-th attempt (when a further attempt follows) is
exactly 200 * 2 ^ (n - 1) milliseconds, so the delay trace is the
prefix 200, 400 of the geometric schedule; and a persistently failing
upstream returning 500 on every attempt surfaces the last error,
carrying status 500 and the body of the third response. -/
theorem C6_retry_budget_and_backoff (env : ℕ → AttemptOutcome) (bodies : ℕ → String) :
    (fetchWithRetries env).attemptsUsed ≤ 3 ∧
    (fetchWithRetries env).delays =
      (List.range ((fetchWithRetries env).attemptsUsed - 1)).map (fun n => 200 * 2 ^ n) ∧
    fetchWithRetries (fun n => .response 500 (bodies n) none) =
      ⟨.error (.httpStatus 500 (bodies 3)), 3, [200, 400]⟩ := by
  obtain ⟨hl, hm, hd⟩ := goFetch_spec env MAX_ATTEMPTS 1 none [] (by omega)
    (by omega) (by norm_num [MAX_ATTEMPTS])
  refine ⟨hm, ?_, rfl⟩
  rw [show fetchWithRetries env = goFetch env MAX_ATTEMPTS 1 none [] from rfl, hd]
  simp

/-! ### Theorems about the normalizers -/

def JsNum.isFinite : JsNum → Bool
  | .fin _ => true
  | _ => false

/-- The dropping condition normalizeFacilityMetadata actually
implements: the resolved id or name value is falsy, the resolved
latitude or longitude value is undefined, or its numeric coercion is
not finite. -/
def droppedFacility (raw : JsRecord) : Bool :=
  !otruthy (resolveIdValue raw) || !otruthy (resolveNameValue raw) ||
    (resolveLatValue raw).isNone || (resolveLonValue raw).isNone ||
    !(jsToNumber ((resolveLatValue raw).getD .nul)).isFinite ||
    !(jsToNumber ((resolveLonValue raw).getD .nul)).isFinite

theorem normalizeFacilityMetadata_eq_none_iff (raw : JsRecord) (config : ServiceConfig) :
    normalizeFacilityMetadata raw config = none ↔ droppedFacility raw = true := by
  unfold normalizeFacilityMetadata droppedFacility
  by_cases hb : (!otruthy (resolveIdValue raw) || !otruthy (resolveNameValue raw) ||
      (resolveLatValue raw).isNone || (resolveLonValue raw).isNone) = true
  · simp [hb]
  · rw [Bool.not_eq_true] at hb
    cases hn : jsToNumber ((resolveLatValue raw).getD .nul) <;>
      cases hm : jsToNumber ((resolveLonValue raw).getD .nul) <;>
      simp [hb, hn, hm, JsNum.isFinite]

/-- A candidate field value resolves to a non-empty string, in the
sense of the claim: present, not null, and coercing to a non-empty
string. -/
def specResolvesString (v : Option Js) : Bool :=
  match v with
  | none => false
  | some .nul => false
  | some x => jsToString x ≠ ""

/-- A candidate field value resolves to a finite number, in the sense
of the claim: present, not null, and coercing to a finite number. -/
def specResolvesNumber (v : Option Js) : Bool :=
  match v with
  | none => false
  | some .nul => false
  | some x => (jsToNumber x).isFinite

def specLatCandidates (raw : JsRecord) : List (Option Js) :=
  [jget raw "lat", jget raw "latitude", jget raw "Latitude"] ++
    (match resolvePositionRecord raw with
     | some p => [jget p "lat", jget p "Lat", jget p "latitude", jget p "Latitude"]
     | none => [])

def specLonCandidates (raw : JsRecord) : List (Option Js) :=
  [jget raw "lon", jget raw "longitude", jget raw "Longitude"] ++
    (match resolvePositionRecord raw with
     | some p => [jget p "lon", jget p "Lon", jget p "longitude", jget p "Longitude"]
     | none => [])

/-- The claim's keep condition for C5, following the spec's words: id
and name resolve to a non-empty string and latitude and longitude
resolve to a finite number, trying all accepted field-name variants
including the coordinates nested under the position sub-object. -/
def specFacilityKept (raw : JsRecord) : Bool :=
  ([jget raw "id", jget raw "Id", jget raw "facilityId", jget raw "FacilityId"].any
      specResolvesString) &&
  ([jget raw "name", jget raw "Name", jget raw "siteName", jget raw "SiteName"].any
      specResolvesString) &&
  ((specLatCandidates raw).any specResolvesNumber) &&
  ((specLonCandidates raw).any specResolvesNumber)

def cfgC5 : ServiceConfig :=
  ⟨3000, "https://api.stockholmparkering.se", "/facilities", "/availability",
   3000, 15000, 86400000, 8000⟩

/-- A record whose id is the number 0: per the claim it is resolvable
(String(0) is the non-empty string "0"), yet the code's truthiness
test drops it. -/
def rawZeroId : JsRecord :=
  [("id", .num (.fin 0)), ("name", .str "Garage"), ("lat", .num (.fin 59)),
   ("lon", .num (.fin 18))]

def rawGoodC5 : JsRecord :=
  [("id", .str "g"), ("name", .str "G"), ("lat", .num (.fin 59)), ("lon", .num (.fin 18))]

def rawNoLatC5 : JsRecord :=
  [("id", .str "a"), ("name", .str "n"), ("lon", .num (.fin 18))]

/-- C5 counterexample: the claim states normalizeFacilityMetadata
returns none exactly when id, name, latitude or longitude cannot be
resolved (non-empty string for id and name, finite number for the
coordinates).  The record with id 0 resolves all four fields in that
sense, yet the code returns none for it, because the implemented test
is JavaScript truthiness of the raw value and the number 0 is falsy. -/
theorem C5_claim_counterexample :
    specFacilityKept rawZeroId = true ∧
    normalizeFacilityMetadata rawZeroId cfgC5 = none := by
  constructor
  · simp [specFacilityKept, specLatCandidates, specLonCandidates, specResolvesString,
      specResolvesNumber, rawZeroId, jget, coalesce, resolvePositionRecord, jsAsRecord,
      jsToString, jsToNumber, numToString, ratToString, JsNum.isFinite, List.find?,
      List.any, Rat.den_ofNat, Rat.num_ofNat]
    decide
  · rfl

/-- C5 (amended): normalizeFacilityMetadata returns none exactly when
the resolved id or name value is falsy by JavaScript truthiness (so the
number 0, false, NaN and the empty string are dropped although some of
them coerce to non-empty strings), or the latitude/longitude value is
undefined after the variant chains (the position sub-object being
consulted only when the top-level chain is undefined, a null
short-circuiting it), or the found value does not coerce to a finite
number (null coercing to 0 and hence accepted); a record whose latitude
value is undefined is dropped while well-formed records in the same
batch are still returned. -/
theorem C5_drop_characterization :
    (∀ (raw : JsRecord) (config : ServiceConfig),
      normalizeFacilityMetadata raw config = none ↔ droppedFacility raw = true) ∧
    (∀ (config : ServiceConfig) (pre post : List Js) (r : JsRecord),
      resolveLatValue r = none →
      normalizeFacilitiesArray config (pre ++ Js.obj r :: post) =
        normalizeFacilitiesArray config pre ++ normalizeFacilitiesArray config post) := by
  constructor
  · exact normalizeFacilityMetadata_eq_none_iff
  · intro config pre post r hlat
    have hdrop : normalizeFacilityMetadata r config = none :=
      (normalizeFacilityMetadata_eq_none_iff r config).mpr (by
        unfold droppedFacility
        simp [hlat])
    simp [normalizeFacilitiesArray, List.filterMap_append, List.filterMap_cons, jsAsRecord,
      hdrop]

theorem C5_drop_characterization_witness :
    normalizeFacilitiesArray cfgC5 [.obj rawGoodC5, .obj rawNoLatC5] =
      normalizeFacilitiesArray cfgC5 [.obj rawGoodC5] ++ normalizeFacilitiesArray cfgC5 [] :=
  C5_drop_characterization.2 cfgC5 [.obj rawGoodC5] [] rawNoLatC5 rfl

/-- C8: both normalizers are pure total functions over arbitrary
JSON-like records; each either returns an explicit none (exactly on its
dropping condition) or a normalized record, and never fails in any
other way.  Totality over the full value space, including malformed
shapes, is witnessed by the functions being defined on all of
`JsRecord`. -/
theorem C8_normalizers_total (raw : JsRecord) (config : ServiceConfig) :
    (normalizeFacilityMetadata raw config).isSome = !droppedFacility raw ∧
    (normalizeAvailability raw).isSome = otruthy (resolveIdValue raw) := by
  constructor
  · have h := normalizeFacilityMetadata_eq_none_iff raw config
    cases hd : droppedFacility raw
    · rw [hd] at h
      simp only [Bool.not_false]
      cases ho : normalizeFacilityMetadata raw config with
      | none => exact absurd (h.mp ho) (by decide)
      | some m => rfl
    · rw [hd] at h
      rw [h.mpr rfl]
      rfl
  · unfold normalizeAvailability
    cases hid : otruthy (resolveIdValue raw) <;> simp [hid]

/-! ### Theorems about the recommendation sort -/

/-- The ordering stated by the claim: distance ascending, ties broken
by free spaces descending with null treated as -1. -/
def claimOrder (a b : FacilityRecommendation) : Prop :=
  a.distanceMeters < b.distanceMeters ∨
    (a.distanceMeters = b.distanceMeters ∧
      b.freeSpaces.getD (-1) ≤ a.freeSpaces.getD (-1))

theorem recLe_iff (a b : FacilityRecommendation) : recLe a b = true ↔ claimOrder a b := by
  unfold recLe recCompare claimOrder
  by_cases h : a.distanceMeters = b.distanceMeters
  · simp [h, sub_nonpos, lt_irrefl]
  · simp [h, sub_nonpos]
    exact ⟨fun hle => lt_of_le_of_ne hle h, le_of_lt⟩

theorem recLe_trans (a b c : FacilityRecommendation) (h1 : recLe a b = true)
    (h2 : recLe b c = true) : recLe a c = true := by
  rw [recLe_iff] at h1 h2 ⊢
  unfold claimOrder at h1 h2 ⊢
  rcases h1 with h1 | ⟨e1, f1⟩ <;> rcases h2 with h2 | ⟨e2, f2⟩
  · exact Or.inl (lt_trans h1 h2)
  · exact Or.inl (e2 ▸ h1)
  · exact Or.inl (e1 ▸ h2)
  · exact Or.inr ⟨e1.trans e2, le_trans f2 f1⟩

theorem recLe_total (a b : FacilityRecommendation) : (recLe a b || recLe b a) = true := by
  rw [Bool.or_eq_true, recLe_iff, recLe_iff]
  unfold claimOrder
  rcases lt_trichotomy a.distanceMeters b.distanceMeters with h | h | h
  · exact .inl (.inl h)
  · rcases le_total (b.freeSpaces.getD (-1)) (a.freeSpaces.getD (-1)) with hf | hf
    · exact .inl (.inr ⟨h, hf⟩)
    · exact .inr (.inr ⟨h.symm, hf⟩)
  · exact .inr (.inl h)

def recTieA : FacilityRecommendation :=
  ⟨"a", "A", 0, 0, some 2, none, none, none, 100, 2, none, false, "u"⟩

def recTieB : FacilityRecommendation :=
  ⟨"b", "B", 0, 0, some 5, none, none, none, 100, 2, none, false, "u"⟩

def recTieC : FacilityRecommendation :=
  ⟨"c", "C", 0, 0, none, none, none, none, 100, 2, none, false, "u"⟩

/-- C9: sortRecommendations orders every list by distance ascending
with ties broken by free spaces descending, a null free-space count
ranking below every non-negative count (as the value -1); on the tied
triple with free spaces 2, 5 and null for ids a, b and c the sorted
order of ids is b, a, c. -/
theorem C9_sort_order :
    (∀ l, (sortRecommendations l).Pairwise claimOrder) ∧
    (sortRecommendations [recTieA, recTieB, recTieC]).map FacilityRecommendation.id =
      ["b", "a", "c"] := by
  constructor
  · intro l
    have h := @List.sorted_mergeSort _ recLe
      (fun a b c => recLe_trans a b c) (fun a b => recLe_total a b) l
    exact h.imp (fun hab => (recLe_iff _ _).mp hab)
  · simp [sortRecommendations, List.mergeSort, List.splitInTwo, List.splitAt, List.splitAt.go,
      List.merge, recLe, recCompare, recTieA, recTieB, recTieC]
    norm_num [List.merge, recLe, recCompare]

/-- C10: sortRecommendations returns a permutation of its input list;
no element is added, dropped or modified.  The source sorts a spread
copy of the array, and in this pure embedding the input value is
untouched by construction. -/
theorem C10_sort_is_permutation (l : List FacilityRecommendation) :
    (sortRecommendations l).Perm l :=
  List.mergeSort_perm l recLe

end SthlmParking
